import Mathlib

/-!
Verification of the IVF vector-index adapter
(`src/cpp/src/core/knowhere/knowhere/index/vector_index/IndexIVF.cpp`,
namespace `zilliz::knowhere`, class `IVF` / `IVFIndexModel`).

The adapter delegates to external faiss code (quantizer training, the
inverted-file search kernel, `clone_index`, `write_index`/`read_index`) and
to the arrow tensor container.  Those collaborators are not part of the
repository fragment, so they are modelled here from the specification
(`spec.md` sections 3, 4.2-4.6, 6), each such definition marked
`Modelled from the spec:`.  Everything else is translated directly from
`IndexIVF.cpp`.

Machine values: vector components and distances are modelled as `Int`
(the adapter itself performs no floating-point arithmetic; all claims
under verification are about control flow, shapes, error paths and
state identity, never about float rounding).
-/

namespace Knowhere

/-- faiss metric kind, as selected in `IVF::Train`
(`metric_type == "L2" ? faiss::METRIC_L2 : faiss::METRIC_INNER_PRODUCT`). -/
inductive MetricType
  | L2
  | innerProduct
deriving DecidableEq, Repr

/-- Error kinds raised by the adapter via `KNOWHERE_THROW_MSG`, identified by
the thrown message:
* `notTrained` : "index not initialize or trained" (Add, AddWithoutIds,
  Serialize, Search, Seal);
* `resourceUnavailable` : "CopyCpuToGpu Error, can't get gpu_resource";
* `corruptData` : load of a malformed blob set (spec section 4.4). -/
inductive KnowhereErr
  | notTrained
  | resourceUnavailable
  | corruptData
deriving DecidableEq, Repr

/-- Modelled from the spec: the state of the external
`faiss::IndexIVFFlat` object held by the adapter through `index_`
(spec section 3 "Coarse Quantizer State" / "Index State"): a trained
flag, the fixed dimension `d`, the metric, `nlist` centroids of the
coarse quantizer, and `nlist` inverted lists of (id, vector) pairs in
insertion order.  `ntotal` is the total stored-vector count. -/
structure FaissIndex where
  is_trained : Bool
  d : Nat
  metric : MetricType
  nlist : Nat
  centroids : List (List Int)
  lists : List (List (Int × List Int))
deriving DecidableEq, Repr

/-- `faiss::Index::ntotal`: total vectors across all inverted lists
(spec section 3: "Total vector count = sum of list lengths"). -/
def FaissIndex.ntotal (idx : FaissIndex) : Nat :=
  (idx.lists.map List.length).sum

/-- Modelled from the spec: `faiss::clone_index`, a deep copy of the
index object (spec sections 4.1 Clone, 9 "Deep-copy-on-clone semantics").
On the pure value it is the identity; aliasing questions are settled
in the heap model below. -/
def clone_index (idx : FaissIndex) : FaissIndex := idx

/-- Pad / truncate a list to exactly `n` entries, filling with `dflt`.
Models a C++ buffer of size `n` whose unwritten tail keeps the value
placed there by `resize` (zero) or by the writer contract. -/
def padTo (n : Nat) (dflt : Int) (l : List Int) : List Int :=
  (l ++ List.replicate (n - l.length) dflt).take n

/-- Modelled from the spec: squared L2 distance used by the coarse
quantizer (`faiss::IndexFlatL2`) and by L2 candidate ranking. -/
def sqL2 (x y : List Int) : Int :=
  (List.zipWith (fun a b => (a - b) * (a - b)) x y).sum

/-- Modelled from the spec: inner product used for candidate ranking
under `METRIC_INNER_PRODUCT`. -/
def ipSim (x y : List Int) : Int :=
  (List.zipWith (fun a b => a * b) x y).sum

/-- Ordering on (distance, tag) pairs: ascending distance, ties by the
ascending tag (spec section 4.3 step 3: "ties broken by ascending
identifier"). -/
def ascDistLe (a b : Int × Int) : Prop :=
  a.1 < b.1 ∨ (a.1 = b.1 ∧ a.2 ≤ b.2)

instance : DecidableRel ascDistLe := fun a b => by
  unfold ascDistLe; infer_instance

/-- Ordering for inner-product ranking: descending similarity, ties by
ascending tag (spec section 4.3 step 3: "largest (for inner-product)"). -/
def descSimLe (a b : Int × Int) : Prop :=
  b.1 < a.1 ∨ (a.1 = b.1 ∧ a.2 ≤ b.2)

instance : DecidableRel descSimLe := fun a b => by
  unfold descSimLe; infer_instance

/-- Sentinel distance for under-filled result rows (spec section 4.3
step 4: implementation-defined; the sentinel identifier is -1). -/
def sentinelDist : Int := 0

/-- Modelled from the spec: indices of the `nprobe` nearest centroids for
one query, nearest first, ties by ascending centroid index
(spec section 4.3 step 1; the coarse quantizer is an `IndexFlatL2`,
so centroid selection always uses L2). -/
def probeSelect (centroids : List (List Int)) (q : List Int) (nprobe : Nat) :
    List Nat :=
  (((centroids.enum.map (fun p => (sqL2 q p.2, (p.1 : Int)))).insertionSort
      ascDistLe).take nprobe).map (fun p => p.2.toNat)

/-- Modelled from the spec: one query of the faiss IVF search kernel
(spec section 4.3): probe the `nprobe` nearest partitions, rank every
candidate in their union by exact distance (ascending for L2, descending
similarity for inner product, ties by ascending id), take `k`, pad with
sentinel id -1 / sentinel distance.  Returns (ids row, distances row),
each of length exactly `k`. -/
def searchOne (idx : FaissIndex) (q : List Int) (k nprobe : Nat) :
    List Int × List Int :=
  let probes := probeSelect idx.centroids q nprobe
  let cands := (probes.map (fun c => idx.lists.getD c [])).flatten
  let scored := cands.map (fun p =>
    (match idx.metric with
     | MetricType.L2 => sqL2 q p.2
     | MetricType.innerProduct => ipSim q p.2, p.1))
  let sorted := match idx.metric with
    | MetricType.L2 => scored.insertionSort ascDistLe
    | MetricType.innerProduct => scored.insertionSort descSimLe
  let top := sorted.take k
  (padTo k (-1) (top.map Prod.snd), padTo k sentinelDist (top.map Prod.fst))

/-- Modelled from the spec: `faiss::ivflib::search_with_parameters` over a
batch of queries; result rows for query `i` occupy output positions
`i*k .. i*k+k-1` (spec section 4.3 step 4). -/
def searchKernel (idx : FaissIndex) (queries : List (List Int)) (k nprobe : Nat) :
    List Int × List Int :=
  ((queries.map (fun q => (searchOne idx q k nprobe).1)).flatten,
   (queries.map (fun q => (searchOne idx q k nprobe).2)).flatten)

/-- Modelled from the spec: the quantizer `assign` capability
(spec section 6): index of the nearest centroid, first one on ties. -/
def assignCentroid (centroids : List (List Int)) (x : List Int) : Nat :=
  match (centroids.enum.map (fun p => (sqL2 x p.2, (p.1 : Int)))).insertionSort
      ascDistLe with
  | [] => 0
  | p :: _ => p.2.toNat

/-- Append one (id, vector) pair to inverted list `c`. -/
def appendToList (lists : List (List (Int × List Int))) (c : Nat)
    (entry : Int × List Int) : List (List (Int × List Int)) :=
  lists.set c (lists.getD c [] ++ [entry])

/-- Modelled from the spec: `faiss::IndexIVF::add_with_ids` — each vector is
appended, with its id, to the inverted list of its nearest centroid
(spec section 4.1 Add). -/
def FaissIndex.add_with_ids (idx : FaissIndex) (batch : List (Int × List Int)) :
    FaissIndex :=
  { idx with
    lists := batch.foldl
      (fun ls e => appendToList ls (assignCentroid idx.centroids e.2) e) idx.lists }

/-! ## Persistence codec

`IVF::SerializeImpl` / `IVF::LoadImpl` (in `FaissBaseIndex`, outside the
repository fragment) delegate to faiss `write_index` / `read_index`.
Modelled from the spec (section 4.4): the index state is encoded into a
named binary blob set; decoding is the exact inverse and rejects
malformed input. -/

/-- A named binary blob set (spec section 3 "Binary Blob Set"):
string key to opaque buffer, here a buffer of `Int` words. -/
def BinarySet : Type := List (String × List Int)

/-- Length-prefixed encoding of one vector. -/
def encVec (v : List Int) : List Int := (v.length : Int) :: v

/-- Decoder for one vector; rejects a buffer shorter than announced. -/
def decVec : List Int → Option (List Int × List Int)
  | [] => none
  | n :: rest =>
    if 0 ≤ n ∧ n.toNat ≤ rest.length then
      some (rest.take n.toNat, rest.drop n.toNat)
    else none

/-- Encoding of one (id, vector) inverted-list entry. -/
def encEntry (e : Int × List Int) : List Int := e.1 :: encVec e.2

/-- Decoder for one (id, vector) entry. -/
def decEntry : List Int → Option ((Int × List Int) × List Int)
  | [] => none
  | i :: rest =>
    match decVec rest with
    | some (v, rest2) => some ((i, v), rest2)
    | none => none

/-- Encoding of one inverted list. -/
def encIList (l : List (Int × List Int)) : List Int :=
  (l.length : Int) :: (l.map encEntry).flatten

/-- Length-prefixed concatenation of element encodings. -/
def encListOf (enc : α → List Int) (l : List α) : List Int :=
  (l.length : Int) :: (l.map enc).flatten

/-- Fuelled decoder for `n` consecutive elements. -/
def decCount (dec : List Int → Option (α × List Int)) :
    Nat → List Int → Option (List α × List Int)
  | 0, s => some ([], s)
  | n + 1, s =>
    match dec s with
    | none => none
    | some (a, s1) =>
      match decCount dec n s1 with
      | none => none
      | some (as, s2) => some (a :: as, s2)

/-- Decoder for a length-prefixed element sequence. -/
def decListOf (dec : List Int → Option (α × List Int)) :
    List Int → Option (List α × List Int)
  | [] => none
  | n :: rest =>
    if 0 ≤ n then decCount dec n.toNat rest else none

/-- Decoder for one inverted list. -/
def decIList (s : List Int) : Option (List (Int × List Int) × List Int) :=
  decListOf decEntry s

/-- Modelled from the spec: the full index encoding — header
(trained flag, dimension, metric, nlist) followed by the centroids and
every inverted list's (id, vector) pairs (spec section 4.4: "Encodes
quantizer parameters and every inverted list's (id, vector) pairs"). -/
def encIndex (idx : FaissIndex) : List Int :=
  (if idx.is_trained then 1 else 0) :: (idx.d : Int) ::
    (match idx.metric with | MetricType.L2 => 0 | MetricType.innerProduct => 1) ::
    (idx.nlist : Int) ::
    (encListOf encVec idx.centroids ++ encListOf encIList idx.lists)

/-- Modelled from the spec: index decoder, exact inverse of `encIndex`;
any malformed buffer yields `none` (spec section 4.4: "must reject
malformed blobs"). -/
def decIndex (s : List Int) : Option (FaissIndex × List Int) :=
  match s with
  | tr :: d :: m :: nl :: rest =>
    if tr = 0 ∨ tr = 1 then
      if 0 ≤ d then
        if m = 0 ∨ m = 1 then
          if 0 ≤ nl then
            match decListOf decVec rest with
            | some (cents, rest1) =>
              match decListOf decIList rest1 with
              | some (ls, rest2) =>
                some (⟨tr = 1, d.toNat,
                       if m = 0 then MetricType.L2 else MetricType.innerProduct,
                       nl.toNat, cents, ls⟩, rest2)
              | none => none
            | none => none
          else none
        else none
      else none
    else none
  | _ => none

/-- `IVF::SerializeImpl` modelled from the spec: one named blob holding
the index encoding. -/
def SerializeImpl (idx : FaissIndex) : BinarySet := [("IVF", encIndex idx)]

/-- `IVF::LoadImpl` modelled from the spec: look up the index blob,
decode it, and reject trailing garbage or a missing/malformed blob. -/
def LoadImpl (bs : BinarySet) : Option FaissIndex :=
  match List.lookup "IVF" bs with
  | some buf =>
    match decIndex buf with
    | some (idx, []) => some idx
    | some (_, _ :: _) => none
    | none => none
  | none => none

/-! ## The `IVF` adapter class

Direct translation of `IndexIVF.cpp`.  The C++ object holds
`std::shared_ptr<faiss::Index> index_`, null before `set_index_model` /
`Load`; modelled as `Option FaissIndex`.  The mutex only serialises
mutation and has no sequential content.  Methods that throw
`KNOWHERE_THROW_MSG` return `Except KnowhereErr`; `Count` and
`Dimension`, which dereference `index_` with no check, return `Option`
(`none` = unguarded null dereference, i.e. undefined behavior, not a
raised error). -/

structure IVF where
  index_ : Option FaissIndex
deriving DecidableEq, Repr

/-- Trace of internal steps `IVF::Serialize` performs after its
precondition check: the `Seal()` call and the `SerializeImpl()` encoding,
in execution order. -/
inductive SerEvent
  | seal
  | encode
deriving DecidableEq, Repr

/-- `IVF::Count`: `return index_->ntotal;` — unguarded dereference of
`index_` (`none` when `index_` is null). -/
def IVF.Count (s : IVF) : Option Int :=
  s.index_.map (fun idx => (idx.ntotal : Int))

/-- `IVF::Dimension`: `return index_->d;` — unguarded dereference of
`index_` (`none` when `index_` is null). -/
def IVF.Dimension (s : IVF) : Option Int :=
  s.index_.map (fun idx => (idx.d : Int))

/-- `IVF::Add`: throws "index not initialize or trained" when `index_` is
null or untrained, else `index_->add_with_ids(rows, p_data, p_ids)`. -/
def IVF.Add (s : IVF) (batch : List (Int × List Int)) :
    Except KnowhereErr IVF :=
  match s.index_ with
  | none => Except.error KnowhereErr.notTrained
  | some idx =>
    if idx.is_trained then Except.ok ⟨some (idx.add_with_ids batch)⟩
    else Except.error KnowhereErr.notTrained

/-- `IVF::AddWithoutIds`: same precondition; `index_->add(rows, p_data)`,
which assigns sequential ids starting at the current `ntotal`
(spec section 4.1 AddWithoutIds; the faiss `add` is external). -/
def IVF.AddWithoutIds (s : IVF) (batch : List (List Int)) :
    Except KnowhereErr IVF :=
  match s.index_ with
  | none => Except.error KnowhereErr.notTrained
  | some idx =>
    if idx.is_trained then
      Except.ok ⟨some (idx.add_with_ids
        (batch.enum.map (fun p => ((idx.ntotal + p.1 : Nat), p.2))))⟩
    else Except.error KnowhereErr.notTrained

/-- `IVF::Search`: precondition check first; only then are the two result
buffers malloc'd (`sizeof(int64_t)*elems` and `sizeof(float)*elems`
bytes) and `search_impl` invoked.  First component: the byte sizes of
the result buffers allocated, in order (empty on the error path —
the check precedes both mallocs). -/
def IVF.Search (s : IVF) (queries : List (List Int)) (k nprobe : Nat) :
    List Nat × Except KnowhereErr (List Int × List Int) :=
  match s.index_ with
  | none => ([], Except.error KnowhereErr.notTrained)
  | some idx =>
    if idx.is_trained then
      let elems := queries.length * k
      ([8 * elems, 4 * elems], Except.ok (searchKernel idx queries k nprobe))
    else ([], Except.error KnowhereErr.notTrained)

/-- `IVF::Seal`: throws "index not initialize or trained" when `index_` is
null or untrained; otherwise `SealImpl()`, which does nothing for this
variant (`IVFIndexModel::SealImpl` is empty). -/
def IVF.Seal (s : IVF) : Except KnowhereErr Unit :=
  match s.index_ with
  | none => Except.error KnowhereErr.notTrained
  | some idx =>
    if idx.is_trained then Except.ok ()
    else Except.error KnowhereErr.notTrained

/-- `IVF::Serialize`: precondition check, then `Seal()`, then
`SerializeImpl()`.  First component: the trace of post-check steps in
execution order (`seal` strictly before `encode`; empty on the error
path). -/
def IVF.Serialize (s : IVF) :
    List SerEvent × Except KnowhereErr BinarySet :=
  match s.index_ with
  | none => ([], Except.error KnowhereErr.notTrained)
  | some idx =>
    if idx.is_trained then
      match s.Seal with
      | Except.error e => ([SerEvent.seal], Except.error e)
      | Except.ok _ => ([SerEvent.seal, SerEvent.encode],
                        Except.ok (SerializeImpl idx))
    else ([], Except.error KnowhereErr.notTrained)

/-- `IVF::Load`: no precondition check; `LoadImpl(index_binary)` replaces
`index_`.  A malformed blob set is rejected with `corruptData`
(spec section 4.4). -/
def IVF.Load (bs : BinarySet) : Except KnowhereErr IVF :=
  match LoadImpl bs with
  | some idx => Except.ok ⟨some idx⟩
  | none => Except.error KnowhereErr.corruptData

/-- `IVF::set_index_model`: `index_.reset(faiss::clone_index(model.index_))`
— a deep copy of the model's index into this adapter. -/
def IVF.set_index_model (_ : IVF) (model : FaissIndex) : IVF :=
  ⟨some (clone_index model)⟩

/-! ## Train -/

/-- One invocation of the external quantizer-training capability
(`faiss::IndexIVFFlat::train(rows, p_data)`), recording the row count and
the metric under which the index was constructed. -/
structure TrainCall where
  rows : Nat
  metric : MetricType
deriving DecidableEq, Repr

/-- `IVF::Train`: reads `nlist` and `metric_type` from the config, maps
the metric string (`"L2"` to `METRIC_L2`, anything else to
`METRIC_INNER_PRODUCT`), builds a fresh `IndexIVFFlat` over an
`IndexFlatL2` coarse quantizer, calls `index->train(rows, p_data)` and
wraps the result in an `IVFIndexModel`.  There is no check on `rows`
and no throw statement in the function body.  The external training
call is the parameter `trainer` (rows, data, dim, nlist, metric);
the first component records every invocation of it, in order. -/
def IVF.Train
    (trainer : Nat → List (List Int) → Nat → Nat → MetricType → FaissIndex)
    (nlist : Nat) (metric_type : String) (dataset : List (List Int))
    (dim : Nat) : List TrainCall × FaissIndex :=
  let metric := if metric_type = "L2" then MetricType.L2
                else MetricType.innerProduct
  let rows := dataset.length
  ([⟨rows, metric⟩], trainer rows dataset dim nlist metric)

/-! ## GenGraph -/

/-- `IVF::search_impl`: `GenParams` then
`faiss::ivflib::search_with_parameters(index_, n, data, k, ...)`; the
flat query buffer is cut into `n` rows of `index_->d` components. -/
def FaissIndex.search_impl (idx : FaissIndex) (n : Nat) (xq : List Int)
    (k nprobe : Nat) : List Int × List Int :=
  searchKernel idx ((List.range n).map
    (fun j => (xq.drop (j * idx.d)).take idx.d)) k nprobe

/-- One `search_impl` invocation made by `GenGraph`: the batch size
`b_size`, the offset `batch_size * dim * i` into the dataset buffer, and
the query slice read there (`b_size * dim` entries demanded). -/
structure GGCall where
  b_size : Nat
  off : Nat
  xq : List Int
deriving DecidableEq, Repr

/-- `IVF::GenGraph`: takes `ntotal` from `Count()` (not from the dataset
argument), walks `total_search_count` batches of `batch_size = 100`
(final batch `tail_batch_size` when `ntotal % 100 ≠ 0`), calls
`search_impl` once per batch on the slice of the dataset buffer at
offset `batch_size * dim * i`, and copies each query's `k` labels into
`graph[batch_size * i + j]` (resized to `k`).  Returns `none` when
`index_` is null (`Count()` dereferences it unguarded); otherwise the
list of `search_impl` calls in order and the resulting graph. -/
def IVF.GenGraph (s : IVF) (k : Nat) (p_data : List Int) (dim : Nat)
    (nprobe : Nat) : Option (List GGCall × List (List Int)) :=
  match s.index_ with
  | none => none
  | some idx =>
    let ntotal := idx.ntotal
    let batch_size := 100
    let tail_batch_size := ntotal % batch_size
    let batch_search_count := ntotal / batch_size
    let total_search_count :=
      if tail_batch_size = 0 then batch_search_count
      else batch_search_count + 1
    let runs := (List.range total_search_count).map (fun i =>
      let b_size :=
        if i = total_search_count - 1 ∧ tail_batch_size ≠ 0 then
          tail_batch_size
        else batch_size
      let off := batch_size * dim * i
      let xq := (p_data.drop off).take (b_size * dim)
      let res := padTo (k * b_size) 0 ((idx.search_impl b_size xq k nprobe).1)
      (GGCall.mk b_size off xq,
       (List.range b_size).map (fun j => padTo k 0 ((res.drop (j * k)).take k))))
    some (runs.map Prod.fst, (runs.map Prod.snd).flatten)

/-! ## CopyCpuToGpu -/

/-- A device resource handle from `FaissGpuResourceMgr` (external). -/
structure GpuResources where
  token : Nat
deriving DecidableEq, Repr

/-- The `GPUIVF` object returned on success: the device-resident deep
copy of the index (`faiss::gpu::index_cpu_to_gpu`), the device id and
the held resource. -/
structure GPUIVF where
  device_index : Option FaissIndex
  device_id : Int
  res : GpuResources
deriving DecidableEq, Repr

/-- `IVF::CopyCpuToGpu`: asks the resource manager for `device_id`
(the parameter `pool` models `FaissGpuResourceMgr::GetRes`); on failure
throws "CopyCpuToGpu Error, can't get gpu_resource"; on success
deep-copies the index to the device.  The method body contains no
assignment to the host object, so the host state after the call is
returned unchanged as the second component. -/
def IVF.CopyCpuToGpu (s : IVF) (pool : Int → Option GpuResources)
    (device_id : Int) : Except KnowhereErr GPUIVF × IVF :=
  match pool device_id with
  | some res =>
    (Except.ok ⟨s.index_.map clone_index, device_id, res⟩, s)
  | none => (Except.error KnowhereErr.resourceUnavailable, s)

/-! ## Heap model for Clone

`IVF::Clone` deep-copies the faiss object (`faiss::clone_index`) into a
freshly allocated object and wraps it into a new `IVF` (`Clone_impl`).
Whether the copy shares storage with the source is invisible on pure
values, so clone and the mutating methods are also modelled on an
explicit heap of `IVF` objects addressed by handles; a mutation writes
one cell, and the deep-copy claim becomes a frame property over the
other cells. -/

structure Heap where
  cells : List IVF
deriving DecidableEq, Repr

/-- Dereference a handle. -/
def Heap.read (h : Heap) (p : Nat) : Option IVF := h.cells[p]?

/-- Overwrite the object at a handle. -/
def Heap.write (h : Heap) (p : Nat) (v : IVF) : Heap := ⟨h.cells.set p v⟩

/-- Allocate a fresh object; its handle is distinct from every live one. -/
def Heap.alloc (h : Heap) (v : IVF) : Heap × Nat :=
  (⟨h.cells ++ [v]⟩, h.cells.length)

/-- `IVF::Clone` on the heap: dereference the source, deep-copy its index
via `faiss::clone_index` into a freshly allocated `IVF` (`Clone_impl`),
return the new handle.  `none` models the null dereference of
`index_.get()` when the source holds no index. -/
def Heap.cloneAt (h : Heap) (p : Nat) : Option (Heap × Nat) :=
  match h.read p with
  | none => none
  | some s =>
    match s.index_ with
    | none => none
    | some idx => some (h.alloc ⟨some (clone_index idx)⟩)

/-- `IVF::Add` invoked on the object at handle `p`: on success the cell
is overwritten, on a thrown error the heap is unchanged. -/
def Heap.addAt (h : Heap) (p : Nat) (batch : List (Int × List Int)) :
    Option Heap :=
  (h.read p).map (fun s =>
    match s.Add batch with
    | Except.ok s2 => h.write p s2
    | Except.error _ => h)

/-- `IVF::AddWithoutIds` invoked on the object at handle `p`. -/
def Heap.addWithoutIdsAt (h : Heap) (p : Nat) (batch : List (List Int)) :
    Option Heap :=
  (h.read p).map (fun s =>
    match s.AddWithoutIds batch with
    | Except.ok s2 => h.write p s2
    | Except.error _ => h)

/-- `IVF::Load` invoked on the object at handle `p`: `LoadImpl` replaces
`index_` on success; a rejected blob set leaves the object unchanged. -/
def Heap.loadAt (h : Heap) (p : Nat) (bs : BinarySet) : Option Heap :=
  (h.read p).map (fun _ =>
    match IVF.Load bs with
    | Except.ok s2 => h.write p s2
    | Except.error _ => h)

/-- Observable behavior of the object at a handle: its `Search` answer. -/
def Heap.searchAt (h : Heap) (p : Nat) (queries : List (List Int))
    (k nprobe : Nat) :
    Option (List Nat × Except KnowhereErr (List Int × List Int)) :=
  (h.read p).map (fun s => s.Search queries k nprobe)

/-- `Count()` of the object at a handle. -/
def Heap.countAt (h : Heap) (p : Nat) : Option (Option Int) :=
  (h.read p).map IVF.Count

/-- `Dimension()` of the object at a handle. -/
def Heap.dimensionAt (h : Heap) (p : Nat) : Option (Option Int) :=
  (h.read p).map IVF.Dimension

/-! ## Concrete example states (used by witnesses) -/

/-- A small trained index: dimension 2, two centroids, one stored vector
per inverted list. -/
def exIdx : FaissIndex :=
  { is_trained := true, d := 2, metric := MetricType.L2, nlist := 2,
    centroids := [[0, 0], [10, 10]],
    lists := [[(0, [0, 1])], [(1, [9, 10])]] }

/-- An adapter holding `exIdx`. -/
def exIVF : IVF := ⟨some exIdx⟩

/-- A one-cell heap holding `exIVF`. -/
def exHeap : Heap := ⟨[exIVF]⟩

/-! ## Theorems -/

/-- Claim C2: on an Index State on which neither `set_index_model` nor
`Load` has been performed (`index_` still null), `Search` raises the
`NotTrained` error ("index not initialize or trained"), and the trace of
result-buffer allocations is empty — the precondition check precedes
both `malloc` calls. -/
theorem search_before_train_not_trained (queries : List (List Int))
    (k nprobe : Nat) :
    (IVF.mk none).Search queries k nprobe =
      ([], Except.error KnowhereErr.notTrained) := rfl

/-- Claim C5: when no device lease is obtainable for `device_id`
(`FaissGpuResourceMgr::GetRes` yields nothing), `CopyCpuToGpu` fails with
the resource-unavailable error ("CopyCpuToGpu Error, can't get
gpu_resource") and the host Index State is unchanged; in particular its
`Count()` is the same before and after the failed call. -/
theorem copy_to_gpu_unavailable (s : IVF) (pool : Int → Option GpuResources)
    (device_id : Int) (hna : pool device_id = none) :
    s.CopyCpuToGpu pool device_id =
      (Except.error KnowhereErr.resourceUnavailable, s) ∧
    (s.CopyCpuToGpu pool device_id).2.Count = s.Count := by
  constructor
  · simp [IVF.CopyCpuToGpu, hna]
  · simp [IVF.CopyCpuToGpu, hna]

/-- Witness for C5 at a concrete state and an empty resource pool. -/
theorem copy_to_gpu_unavailable_witness :
    (fun _ : Int => (none : Option GpuResources)) 7 = none ∧
    (exIVF.CopyCpuToGpu (fun _ => none) 7 =
       (Except.error KnowhereErr.resourceUnavailable, exIVF) ∧
     (exIVF.CopyCpuToGpu (fun _ => none) 7).2.Count = exIVF.Count) :=
  ⟨rfl, copy_to_gpu_unavailable exIVF (fun _ => none) 7 rfl⟩

/-- Claim C6, counterexample: `IVF::Train` contains no emptiness check —
invoked on an empty batch (zero rows) it does not fail with any error;
it invokes the external quantizer-training capability with `rows = 0`
(first component: the single training call, with zero rows) and returns
the resulting model normally.  This refutes "Train invoked on an empty
vector batch fails with the NotReady error, before invoking the
quantizer-training capability". -/
theorem train_empty_counterexample :
    IVF.Train (fun _ _ _ _ _ => exIdx) 4 "L2" [] 8 =
      ([⟨0, MetricType.L2⟩], exIdx) := rfl

/-- Claim C6, amended: for every configuration, `Train` on an empty batch
performs no emptiness check and raises no `NotReady` error: it invokes
the quantizer-training capability exactly once, with zero rows, and
returns the model that capability produces.  Any failure on empty input
arises inside the external capability, not in this adapter. -/
theorem train_empty_no_check
    (trainer : Nat → List (List Int) → Nat → Nat → MetricType → FaissIndex)
    (nlist : Nat) (metric_type : String) (dim : Nat) :
    IVF.Train trainer nlist metric_type [] dim =
      ([⟨0, if metric_type = "L2" then MetricType.L2
            else MetricType.innerProduct⟩],
       trainer 0 [] dim nlist
         (if metric_type = "L2" then MetricType.L2
          else MetricType.innerProduct)) := rfl

/-- Claim C7: `Serialize` raises the `NotTrained` error for every
uninitialized (`index_` null) or untrained Index State, with nothing
executed after the check; for every trained Index State it performs
`Seal()` strictly before the `SerializeImpl()` encoding (the post-check
step trace is `[seal, encode]`) and returns the blob set. -/
theorem serialize_seal_order (s : IVF) :
    (s.index_ = none → s.Serialize = ([], Except.error KnowhereErr.notTrained)) ∧
    (∀ idx, s.index_ = some idx → idx.is_trained = false →
       s.Serialize = ([], Except.error KnowhereErr.notTrained)) ∧
    (∀ idx, s.index_ = some idx → idx.is_trained = true →
       s.Serialize = ([SerEvent.seal, SerEvent.encode],
                      Except.ok (SerializeImpl idx))) := by
  refine ⟨fun hn => ?_, fun idx hi hf => ?_, fun idx hi ht => ?_⟩
  · simp [IVF.Serialize, hn]
  · simp [IVF.Serialize, hi, hf]
  · simp [IVF.Serialize, IVF.Seal, hi, ht]

/-- Witness for C7 at the null, an untrained, and a trained state. -/
theorem serialize_seal_order_witness :
    ((IVF.mk none).Serialize = ([], Except.error KnowhereErr.notTrained)) ∧
    ((IVF.mk (some { exIdx with is_trained := false })).Serialize =
       ([], Except.error KnowhereErr.notTrained)) ∧
    (exIVF.Serialize = ([SerEvent.seal, SerEvent.encode],
                        Except.ok (SerializeImpl exIdx))) :=
  ⟨(serialize_seal_order (IVF.mk none)).1 rfl,
   (serialize_seal_order (IVF.mk (some { exIdx with is_trained := false }))).2.1
     { exIdx with is_trained := false } rfl rfl,
   (serialize_seal_order exIVF).2.2 exIdx rfl rfl⟩

/-- Claim C8: on an Index State on which neither `set_index_model` nor
`Load` has been performed (`index_` null), `Count()` and `Dimension()`
perform no precondition check and have no error path — they dereference
the absent index unguarded (modelled as `none`, a crash, not a raised
error) — while `Add`, `AddWithoutIds`, `Search`, `Serialize` and `Seal`
all raise `NotTrained` on the same state. -/
theorem count_dimension_unguarded (batch : List (Int × List Int))
    (batch2 : List (List Int)) (queries : List (List Int)) (k nprobe : Nat) :
    (IVF.mk none).Count = none ∧
    (IVF.mk none).Dimension = none ∧
    (IVF.mk none).Add batch = Except.error KnowhereErr.notTrained ∧
    (IVF.mk none).AddWithoutIds batch2 = Except.error KnowhereErr.notTrained ∧
    (IVF.mk none).Search queries k nprobe =
      ([], Except.error KnowhereErr.notTrained) ∧
    (IVF.mk none).Serialize = ([], Except.error KnowhereErr.notTrained) ∧
    (IVF.mk none).Seal = Except.error KnowhereErr.notTrained :=
  ⟨rfl, rfl, rfl, rfl, rfl, rfl, rfl⟩

/-- Claim C9: `Train` maps every `metric_type` string other than exactly
`"L2"` to the inner-product metric; no metric string is ever rejected —
the training capability is invoked and its model returned normally, so a
misspelled metric silently trains an inner-product index. -/
theorem train_metric_fallthrough
    (trainer : Nat → List (List Int) → Nat → Nat → MetricType → FaissIndex)
    (nlist : Nat) (metric_type : String) (dataset : List (List Int))
    (dim : Nat) (hne : metric_type ≠ "L2") :
    IVF.Train trainer nlist metric_type dataset dim =
      ([⟨dataset.length, MetricType.innerProduct⟩],
       trainer dataset.length dataset dim nlist MetricType.innerProduct) := by
  simp [IVF.Train, hne]

/-! ### Codec round-trip lemmas (towards C1) -/

/-- Decoding inverts vector encoding. -/
theorem decVec_encVec (v r : List Int) : decVec (encVec v ++ r) = some (v, r) := by
  simp only [encVec, List.cons_append, decVec, Int.toNat_natCast]
  rw [if_pos]
  · rw [List.take_left' rfl, List.drop_left' rfl]
  · exact ⟨Int.natCast_nonneg _, by simp⟩

/-- Decoding inverts entry encoding. -/
theorem decEntry_encEntry (e : Int × List Int) (r : List Int) :
    decEntry (encEntry e ++ r) = some (e, r) := by
  obtain ⟨i, v⟩ := e
  simp [encEntry, decEntry, decVec_encVec]

/-- Decoding a known element count inverts concatenated encodings. -/
theorem decCount_enc {α : Type} (dec : List Int → Option (α × List Int))
    (enc : α → List Int)
    (hde : ∀ (a : α) (r : List Int), dec (enc a ++ r) = some (a, r)) :
    ∀ (l : List α) (r : List Int),
      decCount dec l.length ((l.map enc).flatten ++ r) = some (l, r) := by
  intro l
  induction l with
  | nil => intro r; simp [decCount]
  | cons a t ih =>
    intro r
    simp only [List.map_cons, List.flatten_cons, List.length_cons,
      List.append_assoc, decCount, hde, ih]

/-- Decoding inverts length-prefixed sequence encoding. -/
theorem decListOf_encListOf {α : Type} (dec : List Int → Option (α × List Int))
    (enc : α → List Int)
    (hde : ∀ (a : α) (r : List Int), dec (enc a ++ r) = some (a, r))
    (l : List α) (r : List Int) :
    decListOf dec (encListOf enc l ++ r) = some (l, r) := by
  simp only [encListOf, List.cons_append, decListOf, Int.toNat_natCast]
  rw [if_pos (Int.natCast_nonneg _)]
  exact decCount_enc dec enc hde l r

/-- Decoding inverts inverted-list encoding. -/
theorem decIList_encIList (l : List (Int × List Int)) (r : List Int) :
    decIList (encIList l ++ r) = some (l, r) := by
  have : encIList l = encListOf encEntry l := rfl
  rw [this]
  exact decListOf_encListOf decEntry encEntry decEntry_encEntry l r

/-- Decoding inverts the full index encoding. -/
theorem decIndex_encIndex (idx : FaissIndex) (r : List Int) :
    decIndex (encIndex idx ++ r) = some (idx, r) := by
  obtain ⟨tr, d, m, nl, cents, ls⟩ := idx
  have hc : ∀ r2 : List Int,
      decListOf decVec (encListOf encVec cents ++ r2) = some (cents, r2) :=
    fun r2 => decListOf_encListOf decVec encVec decVec_encVec cents r2
  have hl : ∀ r2 : List Int,
      decListOf decIList (encListOf encIList ls ++ r2) = some (ls, r2) :=
    fun r2 => decListOf_encListOf decIList encIList decIList_encIList ls r2
  cases tr <;> cases m <;>
    simp [encIndex, decIndex, List.append_assoc, hc, hl, Int.toNat_natCast]

/-- `LoadImpl` inverts `SerializeImpl` exactly. -/
theorem loadImpl_serializeImpl (idx : FaissIndex) :
    LoadImpl (SerializeImpl idx) = some idx := by
  have h : decIndex (encIndex idx) = some (idx, []) := by
    have := decIndex_encIndex idx []
    simpa using this
  simp [LoadImpl, SerializeImpl, List.lookup, h]

/-- Claim C1: for every trained Index State `s` (any number of stored
vectors, zero included), `Serialize` succeeds, `Load` of the produced
blob set succeeds, and the loaded state answers every `Search` query
identically to `s` — identical result rows (same ids in the same order)
and identical distances. -/
theorem serialize_load_roundtrip (s : IVF) (idx : FaissIndex)
    (hidx : s.index_ = some idx) (ht : idx.is_trained = true) :
    ∃ (bs : BinarySet) (s2 : IVF),
      s.Serialize.2 = Except.ok bs ∧
      IVF.Load bs = Except.ok s2 ∧
      ∀ (queries : List (List Int)) (k nprobe : Nat),
        s2.Search queries k nprobe = s.Search queries k nprobe := by
  refine ⟨SerializeImpl idx, ⟨some idx⟩, ?_, ?_, ?_⟩
  · simp [IVF.Serialize, IVF.Seal, hidx, ht]
  · simp [IVF.Load, loadImpl_serializeImpl]
  · intro queries k nprobe
    simp [IVF.Search, hidx]

/-- Witness for C1 at a concrete trained two-vector state. -/
theorem serialize_load_roundtrip_witness :
    exIVF.index_ = some exIdx ∧ exIdx.is_trained = true ∧
    ∃ (bs : BinarySet) (s2 : IVF),
      exIVF.Serialize.2 = Except.ok bs ∧
      IVF.Load bs = Except.ok s2 ∧
      ∀ (queries : List (List Int)) (k nprobe : Nat),
        s2.Search queries k nprobe = exIVF.Search queries k nprobe :=
  ⟨rfl, rfl, serialize_load_roundtrip exIVF exIdx rfl rfl⟩

/-! ### Heap frame lemmas (towards C3) -/

/-- Writing one cell leaves every other cell unchanged. -/
theorem read_write_ne (h : Heap) (p q : Nat) (v : IVF) (hne : q ≠ p) :
    (h.write q v).read p = h.read p := by
  simp [Heap.write, Heap.read, List.getElem?_set_ne hne]

/-- Allocation leaves every live cell unchanged. -/
theorem read_alloc_old (h : Heap) (p : Nat) (v : IVF)
    (hlt : p < h.cells.length) :
    (h.alloc v).1.read p = h.read p := by
  simp [Heap.alloc, Heap.read, List.getElem?_append_left hlt]

/-- The fresh handle of an allocation holds the allocated value. -/
theorem read_alloc_new (h : Heap) (v : IVF) :
    (h.alloc v).1.read (h.alloc v).2 = some v := by
  simp [Heap.alloc, Heap.read, List.getElem?_concat_length]

/-- Claim C3: `Clone` produces a fresh object (distinct handle) holding a
deep copy of the trained source: it answers every subsequent `Search`
identically to the source, and any subsequent mutation of the clone
(`Add`, `AddWithoutIds`, `Load`) leaves the source object — hence its
`Count()`, `Dimension()` and `Search` results — unchanged: no shared
storage. -/
theorem clone_deep_copy (h : Heap) (p : Nat) (s : IVF) (idx : FaissIndex)
    (h2 : Heap) (q : Nat)
    (hp : h.read p = some s) (hs : s.index_ = some idx)
    (_ht : idx.is_trained = true)
    (hclone : h.cloneAt p = some (h2, q)) :
    q ≠ p ∧
    h2.read p = some s ∧
    (∀ (queries : List (List Int)) (k nprobe : Nat),
       h2.searchAt q queries k nprobe = h.searchAt p queries k nprobe) ∧
    (∀ (batch : List (Int × List Int)) (h3 : Heap),
       h2.addAt q batch = some h3 →
       h3.read p = some s ∧ h3.countAt p = h.countAt p ∧
       h3.dimensionAt p = h.dimensionAt p ∧
       ∀ (queries : List (List Int)) (k nprobe : Nat),
         h3.searchAt p queries k nprobe = h.searchAt p queries k nprobe) ∧
    (∀ (batch : List (List Int)) (h3 : Heap),
       h2.addWithoutIdsAt q batch = some h3 →
       h3.read p = some s ∧ h3.countAt p = h.countAt p ∧
       h3.dimensionAt p = h.dimensionAt p ∧
       ∀ (queries : List (List Int)) (k nprobe : Nat),
         h3.searchAt p queries k nprobe = h.searchAt p queries k nprobe) ∧
    (∀ (bs : BinarySet) (h3 : Heap),
       h2.loadAt q bs = some h3 →
       h3.read p = some s ∧ h3.countAt p = h.countAt p ∧
       h3.dimensionAt p = h.dimensionAt p ∧
       ∀ (queries : List (List Int)) (k nprobe : Nat),
         h3.searchAt p queries k nprobe = h.searchAt p queries k nprobe) := by
  obtain ⟨si⟩ := s
  have hs2 : si = some idx := hs
  subst hs2
  have hplt : p < h.cells.length := by
    have := (List.getElem?_eq_some_iff).mp hp
    exact this.1
  simp only [Heap.cloneAt, hp, clone_index] at hclone
  have hpair : h.alloc ⟨some idx⟩ = (h2, q) := Option.some.inj hclone
  have hh2a : h2 = (h.alloc (⟨some idx⟩ : IVF)).1 := by rw [hpair]
  have hh2b : q = (h.alloc (⟨some idx⟩ : IVF)).2 := by rw [hpair]
  subst hh2a
  subst hh2b
  have hqp : (h.alloc (⟨some idx⟩ : IVF)).2 ≠ p := by
    simp only [Heap.alloc]
    omega
  have hreadp : (h.alloc (⟨some idx⟩ : IVF)).1.read p = some ⟨some idx⟩ := by
    rw [read_alloc_old h p _ hplt]; exact hp
  have hreadq :
      (h.alloc (⟨some idx⟩ : IVF)).1.read (h.alloc (⟨some idx⟩ : IVF)).2 =
        some ⟨some idx⟩ := read_alloc_new h _
  have hframe : ∀ (h3 : Heap) (v : IVF),
      h3 = (h.alloc (⟨some idx⟩ : IVF)).1.write (h.alloc (⟨some idx⟩ : IVF)).2 v ∨
        h3 = (h.alloc (⟨some idx⟩ : IVF)).1 →
      h3.read p = some ⟨some idx⟩ := by
    intro h3 v hcase
    cases hcase with
    | inl he => rw [he, read_write_ne _ _ _ _ hqp]; exact hreadp
    | inr he => rw [he]; exact hreadp
  have hobs : ∀ (h3 : Heap), h3.read p = some (⟨some idx⟩ : IVF) →
      h3.countAt p = h.countAt p ∧
      h3.dimensionAt p = h.dimensionAt p ∧
      ∀ (queries : List (List Int)) (k nprobe : Nat),
        h3.searchAt p queries k nprobe = h.searchAt p queries k nprobe := by
    intro h3 hr
    refine ⟨?_, ?_, ?_⟩
    · simp [Heap.countAt, hr, hp]
    · simp [Heap.dimensionAt, hr, hp]
    · intro queries k nprobe
      simp [Heap.searchAt, hr, hp]
  refine ⟨hqp, hreadp, ?_, ?_, ?_, ?_⟩
  · intro queries k nprobe
    simp [Heap.searchAt, hreadq, hp]
  · intro batch h3 hmut
    simp only [Heap.addAt, hreadq, Option.map_some'] at hmut
    have hr : h3.read p = some (⟨some idx⟩ : IVF) := by
      cases hadd : (⟨some idx⟩ : IVF).Add batch with
      | ok s2 =>
        rw [hadd] at hmut
        exact hframe h3 s2 (Or.inl (Option.some.inj hmut).symm)
      | error e =>
        rw [hadd] at hmut
        exact hframe h3 (⟨some idx⟩ : IVF) (Or.inr (Option.some.inj hmut).symm)
    exact ⟨hr, hobs h3 hr⟩
  · intro batch h3 hmut
    simp only [Heap.addWithoutIdsAt, hreadq, Option.map_some'] at hmut
    have hr : h3.read p = some (⟨some idx⟩ : IVF) := by
      cases hadd : (⟨some idx⟩ : IVF).AddWithoutIds batch with
      | ok s2 =>
        rw [hadd] at hmut
        exact hframe h3 s2 (Or.inl (Option.some.inj hmut).symm)
      | error e =>
        rw [hadd] at hmut
        exact hframe h3 (⟨some idx⟩ : IVF) (Or.inr (Option.some.inj hmut).symm)
    exact ⟨hr, hobs h3 hr⟩
  · intro bs h3 hmut
    simp only [Heap.loadAt, hreadq, Option.map_some'] at hmut
    have hr : h3.read p = some (⟨some idx⟩ : IVF) := by
      cases hload : IVF.Load bs with
      | ok s2 =>
        rw [hload] at hmut
        exact hframe h3 s2 (Or.inl (Option.some.inj hmut).symm)
      | error e =>
        rw [hload] at hmut
        exact hframe h3 (⟨some idx⟩ : IVF) (Or.inr (Option.some.inj hmut).symm)
    exact ⟨hr, hobs h3 hr⟩

/-- Witness for C3: cloning the single trained object of a one-cell heap. -/
theorem clone_deep_copy_witness :
    exHeap.read 0 = some exIVF ∧ exIVF.index_ = some exIdx ∧
    exIdx.is_trained = true ∧
    exHeap.cloneAt 0 = some (⟨[exIVF, exIVF]⟩, 1) ∧
    ((1 : Nat) ≠ 0 ∧
     (Heap.mk [exIVF, exIVF]).read 0 = some exIVF ∧
     (∀ (queries : List (List Int)) (k nprobe : Nat),
        (Heap.mk [exIVF, exIVF]).searchAt 1 queries k nprobe =
          exHeap.searchAt 0 queries k nprobe) ∧
     (∀ (batch : List (Int × List Int)) (h3 : Heap),
        (Heap.mk [exIVF, exIVF]).addAt 1 batch = some h3 →
        h3.read 0 = some exIVF ∧ h3.countAt 0 = exHeap.countAt 0 ∧
        h3.dimensionAt 0 = exHeap.dimensionAt 0 ∧
        ∀ (queries : List (List Int)) (k nprobe : Nat),
          h3.searchAt 0 queries k nprobe = exHeap.searchAt 0 queries k nprobe) ∧
     (∀ (batch : List (List Int)) (h3 : Heap),
        (Heap.mk [exIVF, exIVF]).addWithoutIdsAt 1 batch = some h3 →
        h3.read 0 = some exIVF ∧ h3.countAt 0 = exHeap.countAt 0 ∧
        h3.dimensionAt 0 = exHeap.dimensionAt 0 ∧
        ∀ (queries : List (List Int)) (k nprobe : Nat),
          h3.searchAt 0 queries k nprobe = exHeap.searchAt 0 queries k nprobe) ∧
     (∀ (bs : BinarySet) (h3 : Heap),
        (Heap.mk [exIVF, exIVF]).loadAt 1 bs = some h3 →
        h3.read 0 = some exIVF ∧ h3.countAt 0 = exHeap.countAt 0 ∧
        h3.dimensionAt 0 = exHeap.dimensionAt 0 ∧
        ∀ (queries : List (List Int)) (k nprobe : Nat),
          h3.searchAt 0 queries k nprobe = exHeap.searchAt 0 queries k nprobe)) :=
  ⟨rfl, rfl, rfl, rfl,
   clone_deep_copy exHeap 0 exIVF exIdx ⟨[exIVF, exIVF]⟩ 1 rfl rfl rfl rfl⟩

/-! ### GenGraph batching lemmas (towards C4 and C10) -/

/-- Mapping a function constant on its domain over a range. -/
theorem map_range_const {α : Type} (n : Nat) (f : Nat → α) (c : α)
    (hf : ∀ i, i < n → f i = c) :
    (List.range n).map f = List.replicate n c := by
  induction n with
  | zero => rfl
  | succ m ih =>
    rw [List.range_succ, List.map_append,
      ih (fun i hi => hf i (by omega)), List.replicate_succ']
    simp [hf m (by omega)]

/-- Sum of a replicated natural number. -/
theorem sum_replicate_nat (n c : Nat) : (List.replicate n c).sum = n * c := by
  induction n with
  | zero => simp
  | succ m ih => rw [List.replicate_succ, List.sum_cons, ih]; ring

/-- `padTo` always yields exactly the requested length. -/
theorem padTo_length (n : Nat) (d : Int) (l : List Int) :
    (padTo n d l).length = n := by
  rw [padTo, List.length_take, List.length_append, List.length_replicate]
  omega

/-- Comprehensive shape description of `GenGraph` on a non-null index:
the number, sizes and offsets of the `search_impl` calls, the graph
length and the node lengths, all driven by `Count()` (`idx.ntotal`). -/
theorem genGraph_spec (s : IVF) (idx : FaissIndex) (hidx : s.index_ = some idx)
    (k : Nat) (p_data : List Int) (dim nprobe : Nat) :
    ∃ (calls : List GGCall) (graph : List (List Int)),
      s.GenGraph k p_data dim nprobe = some (calls, graph) ∧
      calls.length = (idx.ntotal + 99) / 100 ∧
      calls.map GGCall.b_size =
        List.replicate (idx.ntotal / 100) 100 ++
          (if idx.ntotal % 100 = 0 then [] else [idx.ntotal % 100]) ∧
      graph.length = idx.ntotal ∧
      (∀ node ∈ graph, node.length = k) ∧
      (0 < idx.ntotal →
        ∃ c, calls[calls.length - 1]? = some c ∧
          c.off + c.b_size * dim = idx.ntotal * dim ∧ 0 < c.b_size ∧
          c.xq = (p_data.drop c.off).take (c.b_size * dim)) := by
  unfold IVF.GenGraph
  rw [hidx]
  refine ⟨_, _, rfl, ?_, ?_, ?_, ?_, ?_⟩
  · simp only [List.map_map, List.length_map, List.length_range]
    split_ifs <;> omega
  · simp only [List.map_map]
    by_cases hr : idx.ntotal % 100 = 0
    · rw [if_pos hr, hr]
      rw [map_range_const _ _ 100 (fun i hi => by simp [hr])]
      simp
    · rw [if_neg hr, List.range_succ, List.map_append]
      rw [map_range_const _ _ 100 (fun i hi => by simp [hr]; omega)]
      simp only [List.map_cons, List.map_nil, Function.comp_apply,
        Nat.add_sub_cancel]
      rw [if_pos ⟨trivial, hr⟩, if_neg hr]
  · simp only [List.map_map, List.length_flatten, List.map_map]
    by_cases hr : idx.ntotal % 100 = 0
    · rw [if_pos hr]
      rw [map_range_const _ _ 100 (fun i hi => by simp [hr])]
      rw [sum_replicate_nat]
      omega
    · rw [if_neg hr, List.range_succ, List.map_append]
      rw [map_range_const _ _ 100 (fun i hi => by simp [hr]; omega)]
      rw [List.sum_append, sum_replicate_nat]
      simp only [List.map_cons, List.map_nil, List.sum_cons, List.sum_nil,
        Function.comp_apply, List.length_map, List.length_range,
        Nat.add_sub_cancel]
      rw [if_pos ⟨trivial, hr⟩]
      omega
  · intro node hnode
    simp only [List.map_map, List.mem_flatten, List.mem_map,
      List.mem_range] at hnode
    obtain ⟨l, ⟨⟨i, hi, hl⟩, hmem⟩⟩ := hnode
    rw [← hl] at hmem
    simp only [Function.comp] at hmem
    simp only [List.mem_map, List.mem_range] at hmem
    obtain ⟨j, hj, hnodeeq⟩ := hmem
    rw [← hnodeeq, padTo_length]
  · intro hpos
    simp only [List.map_map, List.length_map, List.length_range,
      List.getElem?_map]
    by_cases hr : idx.ntotal % 100 = 0
    · rw [if_pos hr]
      have hlt : idx.ntotal / 100 - 1 < idx.ntotal / 100 := by omega
      rw [List.getElem?_range hlt]
      simp only [Option.map_some', Function.comp_apply]
      refine ⟨_, rfl, ?_, ?_, ?_⟩
      · simp only [eq_self_iff_true, true_and]
        rw [if_neg (fun hcon => hcon hr)]
        have h1 : idx.ntotal / 100 - 1 + 1 = idx.ntotal / 100 := by omega
        have hN : idx.ntotal = 100 * (idx.ntotal / 100) := by omega
        calc 100 * dim * (idx.ntotal / 100 - 1) + 100 * dim
            = 100 * dim * (idx.ntotal / 100 - 1 + 1) := by ring
          _ = 100 * dim * (idx.ntotal / 100) := by rw [h1]
          _ = 100 * (idx.ntotal / 100) * dim := by ring
          _ = idx.ntotal * dim := by rw [← hN]
      · simp only [eq_self_iff_true, true_and]
        rw [if_neg (fun hcon => hcon hr)]
        omega
      · rfl
    · rw [if_neg hr]
      have hlt : idx.ntotal / 100 + 1 - 1 < idx.ntotal / 100 + 1 := by omega
      rw [List.getElem?_range hlt]
      simp only [Option.map_some', Function.comp_apply]
      refine ⟨_, rfl, ?_, ?_, ?_⟩
      · simp only [eq_self_iff_true, true_and]
        rw [if_pos hr]
        have h1 : idx.ntotal / 100 + 1 - 1 = idx.ntotal / 100 := by omega
        have hN : idx.ntotal = 100 * (idx.ntotal / 100) + idx.ntotal % 100 := by
          omega
        calc 100 * dim * (idx.ntotal / 100 + 1 - 1) + idx.ntotal % 100 * dim
            = (100 * (idx.ntotal / 100) + idx.ntotal % 100) * dim := by
              rw [h1]; ring
          _ = idx.ntotal * dim := by rw [← hN]
      · simp only [eq_self_iff_true, true_and]
        rw [if_pos hr]
        omega
      · rfl

/-- Claim C4, counterexample: `GenGraph` sizes its output and its batching
from `Count()`, not from the dataset argument.  On an index holding 2
vectors and a dataset `D` of `N = 1` vector (dim 2), the claim predicts a
Graph of length 1; the code produces a Graph of length 2. -/
theorem gengraph_dataset_size_counterexample :
    (exIVF.GenGraph 1 [0, 0] 2 1).map (fun r => r.2.length) = some 2 ∧
    (2 : Nat) ≠ 1 := ⟨rfl, by decide⟩

/-- Claim C4, amended: for every trained Index State and dataset buffer,
`GenGraph` returns a Graph of length `Count()` whose every entry has
length exactly `k`, invoking the Search Engine exactly
`ceil(Count()/100)` times, each call with a batch of 100 query vectors
except a possibly shorter final remainder batch of `Count() % 100`.
This equals the claim's `N` (the dataset size) exactly when the dataset
holds `Count()` vectors, the intended usage. -/
theorem gengraph_shape (s : IVF) (idx : FaissIndex) (hidx : s.index_ = some idx)
    (k : Nat) (p_data : List Int) (dim nprobe : Nat) :
    ∃ (calls : List GGCall) (graph : List (List Int)),
      s.GenGraph k p_data dim nprobe = some (calls, graph) ∧
      graph.length = idx.ntotal ∧
      (∀ node ∈ graph, node.length = k) ∧
      calls.length = (idx.ntotal + 99) / 100 ∧
      calls.map GGCall.b_size =
        List.replicate (idx.ntotal / 100) 100 ++
          (if idx.ntotal % 100 = 0 then [] else [idx.ntotal % 100]) := by
  obtain ⟨calls, graph, h1, h2, h3, h4, h5, _⟩ :=
    genGraph_spec s idx hidx k p_data dim nprobe
  exact ⟨calls, graph, h1, h4, h5, h2, h3⟩

/-- Witness for the amended C4 on an index holding 2 vectors. -/
theorem gengraph_shape_witness :
    exIVF.index_ = some exIdx ∧
    ∃ (calls : List GGCall) (graph : List (List Int)),
      exIVF.GenGraph 3 [0, 0, 0, 0] 2 1 = some (calls, graph) ∧
      graph.length = exIdx.ntotal ∧
      (∀ node ∈ graph, node.length = 3) ∧
      calls.length = (exIdx.ntotal + 99) / 100 ∧
      calls.map GGCall.b_size =
        List.replicate (exIdx.ntotal / 100) 100 ++
          (if exIdx.ntotal % 100 = 0 then [] else [exIdx.ntotal % 100]) :=
  ⟨rfl, gengraph_shape exIVF exIdx rfl 3 [0, 0, 0, 0] 2 1⟩

/-- Claim C10: `GenGraph` takes the number of vectors to process from the
index's `Count()`, not from the dataset argument: the Graph has
`Count()` entries, and the `search_impl` calls together demand exactly
`Count() * dim` entries of the dataset buffer — the final call's slice
ends at offset `Count() * dim`.  On a dataset buffer shorter than that
(fewer rows than `Count()`), the final demanded slice extends past the
buffer: the C++ code reads out of bounds (in this model, the slice
truncates below the `b_size * dim` entries `search_impl` consumes).
The caller must supply a dataset of at least `Count()` rows. -/
theorem gengraph_reads_beyond_dataset (s : IVF) (idx : FaissIndex)
    (hidx : s.index_ = some idx) (k : Nat) (p_data : List Int)
    (dim nprobe : Nat) (hshort : p_data.length < idx.ntotal * dim) :
    ∃ (calls : List GGCall) (graph : List (List Int)),
      s.GenGraph k p_data dim nprobe = some (calls, graph) ∧
      graph.length = idx.ntotal ∧
      ∃ c, calls[calls.length - 1]? = some c ∧
        c.off + c.b_size * dim = idx.ntotal * dim ∧
        c.xq.length < c.b_size * dim := by
  have hpos : 0 < idx.ntotal := by
    rcases Nat.eq_zero_or_pos idx.ntotal with h0 | h
    · rw [h0] at hshort; simp at hshort
    · exact h
  have hdim : 0 < dim := by
    rcases Nat.eq_zero_or_pos dim with h0 | h
    · rw [h0] at hshort; simp at hshort
    · exact h
  obtain ⟨calls, graph, h1, _, _, h4, _, h6⟩ :=
    genGraph_spec s idx hidx k p_data dim nprobe
  obtain ⟨c, hc1, hc2, hc3, hc4⟩ := h6 hpos
  refine ⟨calls, graph, h1, h4, c, hc1, hc2, ?_⟩
  rw [hc4, List.length_take, List.length_drop]
  have hB : 0 < c.b_size * dim := Nat.mul_pos hc3 hdim
  have hlt : p_data.length - c.off < c.b_size * dim := by
    rcases Nat.lt_or_ge p_data.length c.off with hlo | hhi
    · omega
    · have : p_data.length < c.off + c.b_size * dim := by rw [hc2]; exact hshort
      omega
  exact lt_of_le_of_lt (Nat.min_le_right _ _) hlt

/-- Witness for C10: index holding 2 vectors, dataset buffer of a single
dim-1 row (1 < 2 * 1). -/
theorem gengraph_reads_beyond_dataset_witness :
    exIVF.index_ = some exIdx ∧
    (List.length [(0 : Int)] < exIdx.ntotal * 1) ∧
    ∃ (calls : List GGCall) (graph : List (List Int)),
      exIVF.GenGraph 1 [0] 1 1 = some (calls, graph) ∧
      graph.length = exIdx.ntotal ∧
      ∃ c, calls[calls.length - 1]? = some c ∧
        c.off + c.b_size * 1 = exIdx.ntotal * 1 ∧
        c.xq.length < c.b_size * 1 :=
  ⟨rfl, by decide,
   gengraph_reads_beyond_dataset exIVF exIdx rfl 1 [0] 1 1 (by decide)⟩

/-- Witness for C9 at the misspelled metric string "l2". -/
theorem train_metric_fallthrough_witness :
    ("l2" ≠ "L2") ∧
    IVF.Train (fun _ _ _ _ _ => exIdx) 4 "l2" [[1, 2]] 2 =
      ([⟨1, MetricType.innerProduct⟩], exIdx) :=
  ⟨by decide,
   train_metric_fallthrough (fun _ _ _ _ _ => exIdx) 4 "l2" [[1, 2]] 2
     (by decide)⟩

end Knowhere
